import Mathlib

/-!
Shallow embedding of the earnings-reconciliation routine of
`server.js` (GroveIntel/GIB-Patnership): the functions
`upsertPartnerEarnings` (lines 402-455) and
`syncPartnerEarningsFromTapfiliate` (lines 457-607), together with the
data shapes they consume.

Modelling conventions:
* JavaScript numbers are modelled as exact rationals (`ℚ`).  IEEE-754
  rounding and the `NUMERIC(12,2)` storage rounding of Postgres are
  below the granularity of every statement proved here.
* A dynamic JS value used as a monetary amount is modelled by `JSNum`:
  it is absent (`missing`), a number (`num q`), or a truthy value whose
  numeric coercion is `NaN` (`nans`, e.g. a non-numeric string).
* Dynamic JS string fields are `Option String`; JS truthiness of a
  string (absent, `null` and `""` are falsy) is `strTruthy`.
* The Postgres `partner_earnings` table (created by `ensureV2Tables`,
  lines 349-400, with a unique index on
  `(partner_id, period, currency)`) is modelled as a `List EarningsRow`
  in physical row order; the SQL `INSERT ... ON CONFLICT ... DO UPDATE`
  replaces the (unique) row with the conflicting key in place, which is
  `replaceFirst` below.
* The external Tapfiliate service is a function from a page number to a
  `PageResp`: an HTTP failure, an HTTP-successful body that does not
  parse as a JSON array, or a JSON array of conversion records.
* `DATE` values are kept as the strings the code builds (`"YYYY-MM-01"`).
-/

/-- JS truthiness for an optional string field: `undefined`, `null` and
the empty string are falsy. -/
def strTruthy : Option String → Bool
  | none => false
  | some s => s ≠ ""

/-- JS `a || b` on two optional string fields. -/
def jsOrStr (a b : Option String) : Option String :=
  if strTruthy a then a else b

/-- A dynamic JS value in a monetary-amount position. -/
inductive JSNum where
  | missing
  | num (q : ℚ)
  | nans
deriving DecidableEq

/-- JS truthiness of a `JSNum`: absent, `0` and `NaN` are falsy. -/
def JSNum.truthy : JSNum → Bool
  | .missing => false
  | .num q => q ≠ 0
  | .nans => true

/-- JS `a || b` on two monetary-amount values. -/
def jsOrNum (a b : JSNum) : JSNum :=
  if a.truthy then a else b

/-- JS `Number(x) || 0` as used by `upsertPartnerEarnings` (lines
413-415): a number stays itself (`q || 0 = q` also when `q = 0`),
everything else collapses to `0`. -/
def numOr0 : JSNum → ℚ
  | .num q => q
  | _ => 0

/-- One of the nested shapes the affiliate identifier can live in
(`conv.affiliate`, `conv.affiliate_program`,
`conv.affiliate_program_affiliate`; line 543). -/
structure AffiliateObj where
  id : Option String
  affiliate : Option String
  affiliate_id : Option String
deriving DecidableEq

/-- The optional `conv.commission` object (line 561). -/
structure CommissionObj where
  currency : Option String
deriving DecidableEq

/-- A raw conversion record fetched from Tapfiliate (external,
read-only input; fields as read by lines 542-561). -/
structure Conversion where
  affiliate : Option AffiliateObj
  affiliate_program : Option AffiliateObj
  affiliate_program_affiliate : Option AffiliateObj
  amount : JSNum
  commission_amount : JSNum
  currency : Option String
  commission : Option CommissionObj
deriving DecidableEq

/-- A row of the `partners` table as selected by lines 477-481:
`id` and the nullable `tapfiliate_affiliate_id`. -/
structure PartnerRow where
  id : Nat
  tapfiliate_affiliate_id : Option String
deriving DecidableEq

/-- A row of the `partner_earnings` ledger table (lines 362-375);
`id` and `created_at` are not touched by the upsert and are omitted. -/
structure EarningsRow where
  partner_id : Nat
  period : String
  currency : String
  gross_revenue : ℚ
  net_revenue : ℚ
  commission_rate : ℚ
  commission_amount : ℚ
  source : String
deriving DecidableEq

/-- The startup configuration the routine consumes (lines 22-28). -/
structure Config where
  TAPFILIATE_API_KEY : Option String
  TAPFILIATE_PROGRAM_ID : Option String
  GLOBAL_COMMISSION_RATE : ℚ
  STRIPE_FEE_PERCENT : ℚ
  STRIPE_FEE_FIXED : ℚ

/-- The response of the external service to one page request:
an HTTP failure (`!res.ok`), an HTTP-successful body that fails
`res.json()` or is not an array (both reduce to a non-array page,
lines 522-523), or a JSON array of conversions. -/
inductive PageResp where
  | httpError
  | badBody
  | records (rs : List Conversion)

/-- Errors `syncPartnerEarningsFromTapfiliate` can throw
(lines 459, 464, 519). -/
inductive SyncErr where
  | notConfigured
  | invalidPeriod
  | fetchFailed
deriving DecidableEq

/-- One entry of the `totals` array of the returned summary
(lines 596-603). -/
structure TotalsEntry where
  partner_id : Nat
  currency : String
  gross : ℚ
  net : ℚ
  commission_rate : ℚ
  commission_amount : ℚ
deriving DecidableEq

/-- The summary object returned by the job (lines 492, 536, 606). -/
structure SyncSummary where
  period : String
  totals : List TotalsEntry
  note : Option String
deriving DecidableEq

/-- The `(partner_id, period, currency)` key of a ledger row — the
column set of the unique index `idx_partner_earnings_partner_period_currency`
(lines 377-380). -/
def ledgerKey (r : EarningsRow) : Nat × String × String :=
  (r.partner_id, r.period, r.currency)

/-- Effect of `INSERT ... ON CONFLICT (partner_id, period, currency)
DO UPDATE` on a table whose unique index holds: replace the first (and
only) row with the conflicting key by the new row, or append the new
row when no key conflict exists. -/
def replaceFirst : List EarningsRow → EarningsRow → List EarningsRow
  | [], nr => [nr]
  | r :: rest, nr =>
    if ledgerKey r = ledgerKey nr then nr :: rest else r :: replaceFirst rest nr

/-- The `upsertPartnerEarnings` function (lines 402-455): coerces its
numeric inputs with `Number(x) || 0`, computes
`commissionAmount = net * rate`, and upserts one row keyed by
`(partnerId, period, currency)` with source `'manual_test'`.  Returns
the new ledger and the row produced by `RETURNING *`. -/
def upsertPartnerEarnings (ledger : List EarningsRow) (partnerId : Nat)
    (period currency : String) (grossRevenue netRevenue commissionRate : JSNum) :
    List EarningsRow × EarningsRow :=
  let rate := numOr0 commissionRate
  let net := numOr0 netRevenue
  let gross := numOr0 grossRevenue
  let commissionAmount := net * rate
  let newRow : EarningsRow :=
    ⟨partnerId, period, currency, gross, net, rate, commissionAmount, "manual_test"⟩
  (replaceFirst ledger newRow, newRow)

/-- Validity test for the period argument: the regular expression
`^\d{4}-\d{2}$` of line 463. -/
def isValidPeriodYm (s : String) : Bool :=
  match s.toList with
  | [a, b, c, d, e, f, g] =>
    a.isDigit && b.isDigit && c.isDigit && d.isDigit && e == '-' && f.isDigit && g.isDigit
  | _ => false

/-- The `affiliateToPartner` map (lines 483-488): a JS object, written
by iterating the partner rows in order and keyed by the affiliate id
string; a later row with the same affiliate id overwrites an earlier
one, which the front-inserted association list realises because lookup
takes the first hit. -/
def buildAffiliateMap (rows : List PartnerRow) : List (String × Nat) :=
  rows.foldl
    (fun m r =>
      match r.tapfiliate_affiliate_id with
      | some aid => if aid ≠ "" then (aid, r.id) :: m else m
      | none => m)
    []

/-- Extraction of the affiliate object (line 543):
`conv.affiliate || conv.affiliate_program || conv.affiliate_program_affiliate`
— an object is truthy whenever present. -/
def extractAffiliateObj (c : Conversion) : Option AffiliateObj :=
  c.affiliate <|> c.affiliate_program <|> c.affiliate_program_affiliate

/-- Extraction of the affiliate identifier (lines 544-548):
`affiliate && (affiliate.id || affiliate.affiliate || affiliate.affiliate_id)`
followed by the `if (!affiliateId) continue` truthiness guard. -/
def extractAffiliateId (c : Conversion) : Option String :=
  match extractAffiliateObj c with
  | none => none
  | some a =>
    let v := jsOrStr a.id (jsOrStr a.affiliate a.affiliate_id)
    if strTruthy v then v else none

/-- Extraction of the gross amount before coercion (line 556):
`conv.amount || conv.commission_amount || 0`. -/
def extractGross (c : Conversion) : JSNum :=
  jsOrNum c.amount (jsOrNum c.commission_amount (.num 0))

/-- The guard of line 557: `!gross || Number.isNaN(gross) || gross <= 0`. -/
def grossBad : JSNum → Bool
  | .nans => true
  | .missing => true
  | .num q => q ≤ 0

/-- JS `String.prototype.toLowerCase` restricted to the ASCII range,
written as a plain character map so that it reduces definitionally. -/
def jsToLower (s : String) : String :=
  String.mk (s.data.map Char.toLower)

/-- Extraction and normalisation of the currency (line 561):
`(conv.currency || (conv.commission && conv.commission.currency) || 'usd').toLowerCase()`. -/
def extractCurrency (c : Conversion) : String :=
  jsToLower ((jsOrStr c.currency
      (jsOrStr (c.commission.bind CommissionObj.currency) (some "usd"))).getD "usd")

/-- The per-conversion net estimate (lines 564-565):
`fee = gross * STRIPE_FEE_PERCENT + STRIPE_FEE_FIXED;
net = Math.max(gross - fee, 0)`. -/
def computeNet (cfg : Config) (gross : ℚ) : ℚ :=
  let fee := gross * cfg.STRIPE_FEE_PERCENT + cfg.STRIPE_FEE_FIXED
  max (gross - fee) 0

/-- The bucket key of line 567: the template string
`partnerId + ":" + currency`. -/
def mkBucketKey (pid : Nat) (cur : String) : String :=
  toString pid ++ ":" ++ cur

/-- One aggregation bucket value (lines 568-574). -/
structure BucketEntry where
  partnerId : Nat
  currency : String
  gross : ℚ
  net : ℚ
deriving DecidableEq

/-- In-place update of the entry with the given key (lines 577-578):
`bucket[key].gross += gross; bucket[key].net += net`. -/
def bucketUpd (b : List (String × BucketEntry)) (k : String) (g n : ℚ) :
    List (String × BucketEntry) :=
  match b with
  | [] => []
  | (k', e) :: rest =>
    if k' = k then (k', { e with gross := e.gross + g, net := e.net + n }) :: rest
    else (k', e) :: bucketUpd rest k g n

/-- Effect of lines 567-578 on the bucket object: create the entry at
zero when the key is absent (JS objects keep string keys in insertion
order, hence the append), then add the gross and net amounts. -/
def bucketAdd (b : List (String × BucketEntry)) (pid : Nat) (cur : String) (g n : ℚ) :
    List (String × BucketEntry) :=
  let k := mkBucketKey pid cur
  if (List.lookup k b).isSome then bucketUpd b k g n
  else b ++ [(k, ⟨pid, cur, g, n⟩)]

/-- The body of the aggregation loop (lines 542-579) for one
conversion record: extract and resolve the affiliate id, guard the
gross amount, normalise the currency, estimate the net, and accumulate
into the bucket; every `continue` leaves the bucket unchanged. -/
def processConv (cfg : Config) (map : List (String × Nat))
    (b : List (String × BucketEntry)) (c : Conversion) :
    List (String × BucketEntry) :=
  match extractAffiliateId c with
  | none => b
  | some affiliateId =>
    match List.lookup affiliateId map with
    | none => b
    | some partnerId =>
      if partnerId = 0 then b
      else
        match extractGross c with
        | .missing => b
        | .nans => b
        | .num gross =>
          if gross ≤ 0 then b
          else
            let currency := extractCurrency c
            let net := computeNet cfg gross
            bucketAdd b partnerId currency gross net

/-- The pagination loop body (lines 501-533), recursing on the number
of remaining iterations of `for (let page = 1; page <= 5; page += 1)`.
Returns the outcome (`throw` on `!res.ok`, otherwise the accumulated
conversions) together with the number of page requests issued. -/
def fetchFrom (svc : Nat → PageResp) :
    Nat → Nat → List Conversion → Except SyncErr (List Conversion) × Nat
  | 0, _, acc => (Except.ok acc, 0)
  | fuel + 1, page, acc =>
    match svc page with
    | .httpError => (Except.error .fetchFailed, 1)
    | .badBody => (Except.ok acc, 1)
    | .records rs =>
      if rs.length = 0 then (Except.ok acc, 1)
      else if rs.length < 50 then (Except.ok (acc ++ rs), 1)
      else
        let r := fetchFrom svc fuel (page + 1) (acc ++ rs)
        (r.1, r.2 + 1)

/-- The complete conversion fetch: pages 1 through at most 5. -/
def fetchConversions (svc : Nat → PageResp) : Except SyncErr (List Conversion) :=
  (fetchFrom svc 5 1 []).1

/-- How many page requests the fetch loop issues against the service. -/
def pagesRequested (svc : Nat → PageResp) : Nat :=
  (fetchFrom svc 5 1 []).2

/-- The upsert-and-totals loop (lines 584-604): one
`upsertPartnerEarnings` call per bucket entry in key order, collecting
the totals entries; the commission amount reported is the one of the
row the upsert returned. -/
def applyBuckets (cfg : Config) (periodDate : String) (ledger : List EarningsRow) :
    List (String × BucketEntry) → List EarningsRow × List TotalsEntry
  | [] => (ledger, [])
  | (_, e) :: rest =>
    let res := upsertPartnerEarnings ledger e.partnerId periodDate e.currency
      (.num e.gross) (.num e.net) (.num cfg.GLOBAL_COMMISSION_RATE)
    let rest' := applyBuckets cfg periodDate res.1 rest
    (rest'.1,
      ⟨e.partnerId, e.currency, e.gross, e.net, cfg.GLOBAL_COMMISSION_RATE,
        res.2.commission_amount⟩ :: rest'.2)

/-- The `syncPartnerEarningsFromTapfiliate` function (lines 457-607).
The pure model threads the ledger state through explicitly: the second
component of the result is the ledger after the run, and it equals the
input ledger on every path that returns or throws before the upsert
loop (config guard, period guard, empty affiliate map, fetch failure,
empty conversion set). -/
def syncPartnerEarningsFromTapfiliate (cfg : Config) (partners : List PartnerRow)
    (svc : Nat → PageResp) (ledger : List EarningsRow) (periodYm : String) :
    Except SyncErr SyncSummary × List EarningsRow :=
  if ¬(strTruthy cfg.TAPFILIATE_API_KEY && strTruthy cfg.TAPFILIATE_PROGRAM_ID) then
    (Except.error .notConfigured, ledger)
  else if ¬isValidPeriodYm periodYm then
    (Except.error .invalidPeriod, ledger)
  else
    let affiliateToPartner := buildAffiliateMap partners
    if affiliateToPartner.isEmpty then
      (Except.ok ⟨periodYm, [], some "No partners with tapfiliate_affiliate_id found."⟩,
        ledger)
    else
      match fetchConversions svc with
      | .error e => (Except.error e, ledger)
      | .ok allConversions =>
        if allConversions.isEmpty then
          (Except.ok ⟨periodYm, [], some "No conversions found for this period."⟩, ledger)
        else
          let bucket := allConversions.foldl (processConv cfg affiliateToPartner) []
          let periodDate := periodYm ++ "-01"
          let res := applyBuckets cfg periodDate ledger bucket
          (Except.ok ⟨periodYm, res.2, none⟩, res.1)

/-- Test for a full page: an HTTP-successful JSON array holding at
least the assumed page size of 50 records, which is the only case in
which the loop continues to the next page. -/
def fullPage : PageResp → Bool
  | .records rs => 50 ≤ rs.length
  | _ => false

/-- Records carried by one page response. -/
def pageRecs : PageResp → List Conversion
  | .records rs => rs
  | _ => []

/-- Records of the `k` consecutive pages starting at `page`. -/
def collectFrom (svc : Nat → PageResp) : Nat → Nat → List Conversion
  | _, 0 => []
  | page, k + 1 => pageRecs (svc page) ++ collectFrom svc (page + 1) k

theorem fetchFrom_zero (svc : Nat → PageResp) (page : Nat) (acc : List Conversion) :
    fetchFrom svc 0 page acc = (Except.ok acc, 0) := rfl

theorem fetchFrom_httpError {svc : Nat → PageResp} {page : Nat} (n : Nat)
    (acc : List Conversion) (h : svc page = .httpError) :
    fetchFrom svc (n + 1) page acc = (Except.error .fetchFailed, 1) := by
  simp [fetchFrom, h]

theorem fetchFrom_badBody {svc : Nat → PageResp} {page : Nat} (n : Nat)
    (acc : List Conversion) (h : svc page = .badBody) :
    fetchFrom svc (n + 1) page acc = (Except.ok acc, 1) := by
  simp [fetchFrom, h]

theorem fetchFrom_small {svc : Nat → PageResp} {page : Nat} {rs : List Conversion} (n : Nat)
    (acc : List Conversion) (h : svc page = .records rs) (hlen : rs.length < 50) :
    fetchFrom svc (n + 1) page acc = (Except.ok (acc ++ rs), 1) := by
  by_cases h0 : rs.length = 0
  · have hnil : rs = [] := List.eq_nil_of_length_eq_zero h0
    subst hnil
    simp [fetchFrom, h]
  · simp [fetchFrom, h, h0, hlen]

theorem fetchFrom_full {svc : Nat → PageResp} {page : Nat} {rs : List Conversion} (n : Nat)
    (acc : List Conversion) (h : svc page = .records rs) (hlen : 50 ≤ rs.length) :
    fetchFrom svc (n + 1) page acc =
      ((fetchFrom svc n (page + 1) (acc ++ rs)).1,
       (fetchFrom svc n (page + 1) (acc ++ rs)).2 + 1) := by
  have h0 : ¬rs.length = 0 := by omega
  have h50 : ¬rs.length < 50 := by omega
  simp [fetchFrom, h, h0, h50]

theorem fetchFrom_count_le (svc : Nat → PageResp) :
    ∀ (n page : Nat) (acc : List Conversion), (fetchFrom svc n page acc).2 ≤ n := by
  intro n
  induction n with
  | zero => intro page acc; simp [fetchFrom_zero]
  | succ k ih =>
    intro page acc
    cases hp : svc page with
    | httpError => rw [fetchFrom_httpError k acc hp]; omega
    | badBody => rw [fetchFrom_badBody k acc hp]; omega
    | records rs =>
      by_cases hl : rs.length < 50
      · rw [fetchFrom_small k acc hp hl]; omega
      · rw [fetchFrom_full k acc hp (by omega)]
        have := ih (page + 1) (acc ++ rs)
        simp only []
        omega

theorem fetchFrom_full_prefix (svc : Nat → PageResp) :
    ∀ (k n page : Nat) (acc : List Conversion), k ≤ n →
      (∀ i, i < k → fullPage (svc (page + i)) = true) →
      fetchFrom svc n page acc =
        ((fetchFrom svc (n - k) (page + k) (acc ++ collectFrom svc page k)).1,
         (fetchFrom svc (n - k) (page + k) (acc ++ collectFrom svc page k)).2 + k) := by
  intro k
  induction k with
  | zero => intro n page acc _ _; simp [collectFrom]
  | succ j ih =>
    intro n page acc hkn hfull
    obtain ⟨m, rfl⟩ : ∃ m, n = m + 1 := ⟨n - 1, by omega⟩
    have h0 : fullPage (svc page) = true := by
      have := hfull 0 (by omega)
      simpa using this
    cases hp : svc page with
    | httpError => rw [hp] at h0; simp [fullPage] at h0
    | badBody => rw [hp] at h0; simp [fullPage] at h0
    | records rs =>
      have hlen : 50 ≤ rs.length := by
        rw [hp] at h0
        simpa [fullPage] using h0
      rw [fetchFrom_full m acc hp hlen]
      rw [ih m (page + 1) (acc ++ rs) (by omega)
        (fun i hi => by
          have := hfull (i + 1) (by omega)
          rwa [show page + (i + 1) = page + 1 + i by omega] at this)]
      have e1 : m - j = m + 1 - (j + 1) := by omega
      have e2 : page + 1 + j = page + (j + 1) := by omega
      have e3 : acc ++ rs ++ collectFrom svc (page + 1) j =
          acc ++ collectFrom svc page (j + 1) := by
        simp [collectFrom, hp, pageRecs, List.append_assoc]
      rw [e1, e2, e3]
      simp [Nat.add_assoc]


/-- Membership test for a ledger key, mirroring what the unique index
can conflict on. -/
def hasKey : List EarningsRow → Nat × String × String → Bool
  | [], _ => false
  | r :: rest, k => decide (ledgerKey r = k) || hasKey rest k

theorem mem_replaceFirst {l : List EarningsRow} {nr r : EarningsRow}
    (h : r ∈ replaceFirst l nr) : r ∈ l ∨ r = nr := by
  induction l with
  | nil =>
    simp [replaceFirst] at h
    exact Or.inr h
  | cons x rest ih =>
    by_cases hk : ledgerKey x = ledgerKey nr
    · simp [replaceFirst, hk] at h
      rcases h with h | h
      · exact Or.inr h
      · exact Or.inl (List.mem_cons_of_mem _ h)
    · simp [replaceFirst, hk] at h
      rcases h with h | h
      · exact Or.inl (by simp [h])
      · rcases ih h with h2 | h2
        · exact Or.inl (List.mem_cons_of_mem _ h2)
        · exact Or.inr h2

theorem hasKey_replaceFirst_self (l : List EarningsRow) (nr : EarningsRow) :
    hasKey (replaceFirst l nr) (ledgerKey nr) = true := by
  induction l with
  | nil => simp [replaceFirst, hasKey]
  | cons x rest ih =>
    by_cases hk : ledgerKey x = ledgerKey nr
    · simp [replaceFirst, hk, hasKey]
    · simp [replaceFirst, hk, hasKey, ih]

theorem hasKey_replaceFirst_mono {l : List EarningsRow} {k : Nat × String × String}
    (nr : EarningsRow) (h : hasKey l k = true) : hasKey (replaceFirst l nr) k = true := by
  induction l with
  | nil => simp [hasKey] at h
  | cons x rest ih =>
    simp [hasKey] at h
    by_cases hk : ledgerKey x = ledgerKey nr
    · rcases h with h | h
      · simp [replaceFirst, hk, hasKey, hk ▸ h]
      · simp only [replaceFirst, if_pos hk, hasKey, Bool.or_eq_true, decide_eq_true_eq]
        exact Or.inr h
    · rcases h with h | h
      · simp only [replaceFirst, if_neg hk, hasKey, Bool.or_eq_true, decide_eq_true_eq]
        exact Or.inl h
      · simp [replaceFirst, hk, hasKey, ih h]

theorem replaceFirst_idem (l : List EarningsRow) (nr : EarningsRow) :
    replaceFirst (replaceFirst l nr) nr = replaceFirst l nr := by
  induction l with
  | nil => simp [replaceFirst]
  | cons x rest ih =>
    by_cases hk : ledgerKey x = ledgerKey nr
    · simp [replaceFirst, hk]
    · simp [replaceFirst, hk, ih]

theorem replaceFirst_comm {l : List EarningsRow} {a b : EarningsRow}
    (hk : hasKey l (ledgerKey a) = true) (hne : ledgerKey a ≠ ledgerKey b) :
    replaceFirst (replaceFirst l b) a = replaceFirst (replaceFirst l a) b := by
  induction l with
  | nil => simp [hasKey] at hk
  | cons x rest ih =>
    by_cases hxa : ledgerKey x = ledgerKey a
    · have hxb : ledgerKey x ≠ ledgerKey b := by rw [hxa]; exact hne
      simp [replaceFirst, hxa, hxb, hne, Ne.symm hne]
    · by_cases hxb : ledgerKey x = ledgerKey b
      · simp [replaceFirst, hxa, hxb, hne, Ne.symm hne]
      · have hrest : hasKey rest (ledgerKey a) = true := by
          simp [hasKey, hxa] at hk
          exact hk
        simp [replaceFirst, hxa, hxb, ih hrest]

/-- At-most-one-row-per-key invariant of the `partner_earnings` table,
the guarantee of the unique index
`idx_partner_earnings_partner_period_currency`. -/
def keysDistinct : List EarningsRow → Bool
  | [] => true
  | r :: rest => (rest.all fun s => decide (ledgerKey r ≠ ledgerKey s)) && keysDistinct rest

theorem keysDistinct_replaceFirst {l : List EarningsRow} (nr : EarningsRow)
    (h : keysDistinct l = true) : keysDistinct (replaceFirst l nr) = true := by
  induction l with
  | nil => simp [replaceFirst, keysDistinct]
  | cons x rest ih =>
    simp [keysDistinct, List.all_eq_true] at h
    obtain ⟨hall, hrest⟩ := h
    by_cases hk : ledgerKey x = ledgerKey nr
    · simp [replaceFirst, hk, keysDistinct, List.all_eq_true, hrest]
      intro s hs
      rw [← hk]
      exact hall s hs
    · simp [replaceFirst, hk, keysDistinct, List.all_eq_true, ih hrest]
      intro s hs
      rcases mem_replaceFirst hs with h2 | h2
      · exact hall s h2
      · rw [h2]; exact hk

/-- The ledger row one bucket entry produces through
`upsertPartnerEarnings` in the totals loop of the job (lines 587-594). -/
def entryRow (cfg : Config) (pd : String) (e : BucketEntry) : EarningsRow :=
  ⟨e.partnerId, pd, e.currency, e.gross, e.net, cfg.GLOBAL_COMMISSION_RATE,
    e.net * cfg.GLOBAL_COMMISSION_RATE, "manual_test"⟩

/-- Ledger component of the totals loop, stripped of the totals
accumulation (which never feeds back into the ledger). -/
def applyLedger (cfg : Config) (pd : String) :
    List EarningsRow → List (String × BucketEntry) → List EarningsRow
  | l, [] => l
  | l, (_, e) :: bs => applyLedger cfg pd (replaceFirst l (entryRow cfg pd e)) bs

theorem upsert_fst_eq_replaceFirst (l : List EarningsRow) (cfg : Config) (pd : String)
    (e : BucketEntry) :
    (upsertPartnerEarnings l e.partnerId pd e.currency
      (.num e.gross) (.num e.net) (.num cfg.GLOBAL_COMMISSION_RATE)).1 =
      replaceFirst l (entryRow cfg pd e) := rfl

theorem applyBuckets_fst (cfg : Config) (pd : String) (l : List EarningsRow)
    (bs : List (String × BucketEntry)) :
    (applyBuckets cfg pd l bs).1 = applyLedger cfg pd l bs := by
  induction bs generalizing l with
  | nil => rfl
  | cons x bs ih =>
    obtain ⟨k, e⟩ := x
    show (applyBuckets cfg pd
      (upsertPartnerEarnings l e.partnerId pd e.currency
        (.num e.gross) (.num e.net) (.num cfg.GLOBAL_COMMISSION_RATE)).1 bs).1 = _
    rw [upsert_fst_eq_replaceFirst, ih]
    rfl

/-- The key of the ledger row a bucket entry is upserted under. -/
def entryKey (pd : String) (e : BucketEntry) : Nat × String × String :=
  (e.partnerId, pd, e.currency)

theorem ledgerKey_entryRow (cfg : Config) (pd : String) (e : BucketEntry) :
    ledgerKey (entryRow cfg pd e) = entryKey pd e := rfl

theorem mem_applyLedger {cfg : Config} {pd : String} {l : List EarningsRow}
    {bs : List (String × BucketEntry)} {r : EarningsRow}
    (h : r ∈ applyLedger cfg pd l bs) : r ∈ l ∨ r.source = "manual_test" := by
  induction bs generalizing l with
  | nil => exact Or.inl h
  | cons x bs ih =>
    obtain ⟨k, e⟩ := x
    rcases ih h with h2 | h2
    · rcases mem_replaceFirst h2 with h3 | h3
      · exact Or.inl h3
      · exact Or.inr (by rw [h3]; rfl)
    · exact Or.inr h2

theorem keysDistinct_applyLedger {cfg : Config} {pd : String} {l : List EarningsRow}
    (bs : List (String × BucketEntry)) (h : keysDistinct l = true) :
    keysDistinct (applyLedger cfg pd l bs) = true := by
  induction bs generalizing l with
  | nil => exact h
  | cons x bs ih =>
    obtain ⟨k, e⟩ := x
    exact ih (keysDistinct_replaceFirst _ h)

theorem replaceFirst_applyLedger_comm {cfg : Config} {pd : String} {a : EarningsRow}
    {bs : List (String × BucketEntry)} :
    ∀ {l : List EarningsRow}, hasKey l (ledgerKey a) = true →
      (∀ x ∈ bs, entryKey pd x.2 ≠ ledgerKey a) →
      replaceFirst (applyLedger cfg pd l bs) a = applyLedger cfg pd (replaceFirst l a) bs := by
  induction bs with
  | nil => intro l _ _; rfl
  | cons x bs ih =>
    intro l hk hne
    obtain ⟨k, e⟩ := x
    have hkey : ledgerKey a ≠ ledgerKey (entryRow cfg pd e) := by
      rw [ledgerKey_entryRow]
      exact Ne.symm (hne (k, e) (List.mem_cons_self _ _))
    show replaceFirst (applyLedger cfg pd (replaceFirst l (entryRow cfg pd e)) bs) a = _
    rw [ih (hasKey_replaceFirst_mono _ hk) (fun y hy => hne y (List.mem_cons_of_mem _ hy))]
    rw [replaceFirst_comm hk hkey]
    rfl

theorem applyLedger_idem {cfg : Config} {pd : String} {bs : List (String × BucketEntry)}
    (hnd : bs.Pairwise fun x y => entryKey pd x.2 ≠ entryKey pd y.2) :
    ∀ l : List EarningsRow,
      applyLedger cfg pd (applyLedger cfg pd l bs) bs = applyLedger cfg pd l bs := by
  induction bs with
  | nil => intro l; rfl
  | cons x bs ih =>
    intro l
    obtain ⟨k, e⟩ := x
    rw [List.pairwise_cons] at hnd
    obtain ⟨hhead, hrest⟩ := hnd
    set ra := entryRow cfg pd e with hra
    set l1 := replaceFirst l ra with hl1
    show applyLedger cfg pd (replaceFirst (applyLedger cfg pd l1 bs) ra) bs =
      applyLedger cfg pd l1 bs
    rw [replaceFirst_applyLedger_comm (a := ra)
      (by rw [hl1]; exact hasKey_replaceFirst_self l ra)
      (fun y hy => by rw [ledgerKey_entryRow]; exact Ne.symm (hhead y hy))]
    rw [show replaceFirst l1 ra = l1 from by rw [hl1]; exact replaceFirst_idem l ra]
    exact ih hrest l1

/-- Well-formedness of the aggregation bucket as built by the loop: the
JS object has no duplicate keys, and every entry records the partner id
and currency its key was built from. -/
def bucketWF (b : List (String × BucketEntry)) : Prop :=
  (b.map Prod.fst).Nodup ∧ ∀ x ∈ b, x.1 = mkBucketKey x.2.partnerId x.2.currency

theorem bucketUpd_fst_map (b : List (String × BucketEntry)) (k : String) (g n : ℚ) :
    (bucketUpd b k g n).map Prod.fst = b.map Prod.fst := by
  induction b with
  | nil => rfl
  | cons x rest ih =>
    obtain ⟨k2, e⟩ := x
    by_cases hk : k2 = k
    · simp [bucketUpd, hk]
    · simp [bucketUpd, hk, ih]

theorem bucketUpd_mem {b : List (String × BucketEntry)} {k : String} {g n : ℚ}
    {x : String × BucketEntry} (h : x ∈ bucketUpd b k g n) :
    ∃ y ∈ b, x.1 = y.1 ∧ x.2.partnerId = y.2.partnerId ∧ x.2.currency = y.2.currency := by
  induction b with
  | nil => simp [bucketUpd] at h
  | cons z rest ih =>
    obtain ⟨k2, e⟩ := z
    by_cases hk : k2 = k
    · simp [bucketUpd, hk] at h
      rcases h with h | h
      · exact ⟨(k2, e), List.mem_cons_self _ _, by simp [h, hk]⟩
      · exact ⟨x, List.mem_cons_of_mem _ h, rfl, rfl, rfl⟩
    · simp [bucketUpd, hk] at h
      rcases h with h | h
      · exact ⟨(k2, e), List.mem_cons_self _ _, by simp [h]⟩
      · obtain ⟨y, hy, he⟩ := ih h
        exact ⟨y, List.mem_cons_of_mem _ hy, he⟩

theorem lookup_none_not_mem {b : List (String × BucketEntry)} {k : String}
    (h : (List.lookup k b).isSome = false) : k ∉ b.map Prod.fst := by
  induction b with
  | nil => simp
  | cons x rest ih =>
    obtain ⟨k2, e⟩ := x
    by_cases hk : k = k2
    · subst hk
      simp [List.lookup] at h
    · have hb : (k == k2) = false := by simp [hk]
      have h2 : (List.lookup k rest).isSome = false := by
        simpa [List.lookup, hb] using h
      rw [List.map_cons]
      simp only [List.mem_cons]
      rintro (h1 | h1)
      · exact hk h1
      · exact ih h2 h1

theorem bucketAdd_WF {b : List (String × BucketEntry)} (pid : Nat) (cur : String) (g n : ℚ)
    (h : bucketWF b) : bucketWF (bucketAdd b pid cur g n) := by
  obtain ⟨hnd, hcons⟩ := h
  by_cases hs : (List.lookup (mkBucketKey pid cur) b).isSome
  · have hb : bucketAdd b pid cur g n = bucketUpd b (mkBucketKey pid cur) g n := by
      simp [bucketAdd, hs]
    constructor
    · rw [hb, bucketUpd_fst_map]
      exact hnd
    · intro x hx
      rw [hb] at hx
      obtain ⟨y, hy, h1, h2, h3⟩ := bucketUpd_mem hx
      rw [h1, h2, h3]
      exact hcons y hy
  · have hs2 : (List.lookup (mkBucketKey pid cur) b).isSome = false :=
      Bool.of_not_eq_true hs
    have hnot : (mkBucketKey pid cur) ∉ b.map Prod.fst := lookup_none_not_mem hs2
    have hb : bucketAdd b pid cur g n = b ++ [(mkBucketKey pid cur, ⟨pid, cur, g, n⟩)] := by
      simp [bucketAdd, hs2]
    constructor
    · rw [hb]
      simp [List.nodup_append, hnd, hnot]
    · intro x hx
      rw [hb] at hx
      rcases List.mem_append.1 hx with h2 | h2
      · exact hcons x h2
      · simp at h2
        rw [h2]

theorem processConv_WF {cfg : Config} {m : List (String × Nat)}
    {b : List (String × BucketEntry)} (c : Conversion) (h : bucketWF b) :
    bucketWF (processConv cfg m b c) := by
  cases hA : extractAffiliateId c with
  | none => simpa [processConv, hA] using h
  | some aid =>
    cases hL : List.lookup aid m with
    | none => simpa [processConv, hA, hL] using h
    | some pid =>
      by_cases hpid : pid = 0
      · simpa [processConv, hA, hL, hpid] using h
      · cases hG : extractGross c with
        | missing => simpa [processConv, hA, hL, hpid, hG] using h
        | nans => simpa [processConv, hA, hL, hpid, hG] using h
        | num gross =>
          by_cases hg : gross ≤ 0
          · simpa [processConv, hA, hL, hpid, hG, hg] using h
          · have hb : processConv cfg m b c =
                bucketAdd b pid (extractCurrency c) gross (computeNet cfg gross) := by
              simp [processConv, hA, hL, hpid, hG, hg]
            rw [hb]
            exact bucketAdd_WF _ _ _ _ h

theorem foldl_processConv_WF (cfg : Config) (m : List (String × Nat))
    (convs : List Conversion) :
    ∀ b : List (String × BucketEntry), bucketWF b →
      bucketWF (convs.foldl (processConv cfg m) b) := by
  induction convs with
  | nil => intro b h; exact h
  | cons c convs ih =>
    intro b h
    exact ih _ (processConv_WF c h)

theorem bucketWF_pairwise_entryKey {b : List (String × BucketEntry)} (pd : String)
    (h : bucketWF b) :
    b.Pairwise fun x y => entryKey pd x.2 ≠ entryKey pd y.2 := by
  obtain ⟨hnd, hcons⟩ := h
  induction b with
  | nil => exact List.Pairwise.nil
  | cons x rest ih =>
    simp only [List.map_cons, List.nodup_cons] at hnd
    obtain ⟨hx, hrest⟩ := hnd
    refine List.Pairwise.cons ?_ (ih hrest fun y hy => hcons y (List.mem_cons_of_mem _ hy))
    intro y hy heq
    have h1 : x.2.partnerId = y.2.partnerId := by
      have := congrArg Prod.fst heq
      simpa [entryKey] using this
    have h2 : x.2.currency = y.2.currency := by
      have := congrArg (fun p => p.2.2) heq
      simpa [entryKey] using this
    have hkeq : x.1 = y.1 := by
      rw [hcons x (List.mem_cons_self _ _), hcons y (List.mem_cons_of_mem _ hy), h1, h2]
    exact hx (hkeq ▸ List.mem_map_of_mem Prod.fst hy)

/-- Conditions under which the job reaches its aggregation-and-upsert
phase; all of them are independent of the ledger contents. -/
def mainCond (cfg : Config) (partners : List PartnerRow) (svc : Nat → PageResp)
    (p : String) : Prop :=
  strTruthy cfg.TAPFILIATE_API_KEY = true ∧ strTruthy cfg.TAPFILIATE_PROGRAM_ID = true ∧
  isValidPeriodYm p = true ∧ (buildAffiliateMap partners).isEmpty = false ∧
  ∃ convs, fetchConversions svc = Except.ok convs ∧ convs.isEmpty = false

theorem sync_main_eq (cfg : Config) (partners : List PartnerRow) (svc : Nat → PageResp)
    (l : List EarningsRow) (p : String) (convs : List Conversion)
    (h1 : strTruthy cfg.TAPFILIATE_API_KEY = true)
    (h2 : strTruthy cfg.TAPFILIATE_PROGRAM_ID = true)
    (h3 : isValidPeriodYm p = true)
    (h4 : (buildAffiliateMap partners).isEmpty = false)
    (h5 : fetchConversions svc = Except.ok convs)
    (h6 : convs.isEmpty = false) :
    syncPartnerEarningsFromTapfiliate cfg partners svc l p =
      (Except.ok ⟨p,
        (applyBuckets cfg (p ++ "-01") l
          (convs.foldl (processConv cfg (buildAffiliateMap partners)) [])).2, none⟩,
       (applyBuckets cfg (p ++ "-01") l
          (convs.foldl (processConv cfg (buildAffiliateMap partners)) [])).1) := by
  unfold syncPartnerEarningsFromTapfiliate
  simp [h1, h2, h3, h4, h5, h6]

theorem sync_early_snd (cfg : Config) (partners : List PartnerRow) (svc : Nat → PageResp)
    (l : List EarningsRow) (p : String) (h : ¬mainCond cfg partners svc p) :
    (syncPartnerEarningsFromTapfiliate cfg partners svc l p).2 = l := by
  unfold syncPartnerEarningsFromTapfiliate
  by_cases h1 : strTruthy cfg.TAPFILIATE_API_KEY = true
  · by_cases h2 : strTruthy cfg.TAPFILIATE_PROGRAM_ID = true
    · by_cases h3 : isValidPeriodYm p = true
      · by_cases h4 : (buildAffiliateMap partners).isEmpty = false
        · cases h5 : fetchConversions svc with
          | error e => simp [h1, h2, h3, h4, h5]
          | ok convs =>
            by_cases h6 : convs.isEmpty = false
            · exact absurd ⟨h1, h2, h3, h4, convs, h5, h6⟩ h
            · have h7 : convs.isEmpty = true := by
                cases hb : convs.isEmpty
                · exact absurd hb h6
                · rfl
              simp [h1, h2, h3, h4, h5, h7]
        · have h7 : (buildAffiliateMap partners).isEmpty = true := by
            cases hb : (buildAffiliateMap partners).isEmpty
            · exact absurd hb h4
            · rfl
          simp [h1, h2, h3, h7]
      · have h7 : isValidPeriodYm p = false := Bool.of_not_eq_true h3
        simp [h1, h2, h7]
    · have h7 : strTruthy cfg.TAPFILIATE_PROGRAM_ID = false := Bool.of_not_eq_true h2
      simp [h1, h7]
  · have h7 : strTruthy cfg.TAPFILIATE_API_KEY = false := Bool.of_not_eq_true h1
    simp [h7]

theorem fetch_reaches (svc : Nat → PageResp) (p : Nat) (h1 : 1 ≤ p) (h5 : p ≤ 5)
    (hpre : ∀ q, 1 ≤ q → q < p → fullPage (svc q) = true) :
    fetchConversions svc = (fetchFrom svc (6 - p) p (collectFrom svc 1 (p - 1))).1 ∧
    pagesRequested svc = (fetchFrom svc (6 - p) p (collectFrom svc 1 (p - 1))).2 + (p - 1) := by
  have hk : p - 1 ≤ 5 := by omega
  have hfull : ∀ i, i < p - 1 → fullPage (svc (1 + i)) = true := fun i hi =>
    hpre (1 + i) (by omega) (by omega)
  have h := fetchFrom_full_prefix svc (p - 1) 5 1 [] hk hfull
  have e1 : 5 - (p - 1) = 6 - p := by omega
  have e2 : 1 + (p - 1) = p := by omega
  rw [e1, e2] at h
  simp only [List.nil_append] at h
  constructor
  · unfold fetchConversions
    rw [h]
  · unfold pagesRequested
    rw [h]

theorem sync_main_snd (cfg : Config) (partners : List PartnerRow) (svc : Nat → PageResp)
    (l : List EarningsRow) (p : String) (convs : List Conversion)
    (h1 : strTruthy cfg.TAPFILIATE_API_KEY = true)
    (h2 : strTruthy cfg.TAPFILIATE_PROGRAM_ID = true)
    (h3 : isValidPeriodYm p = true)
    (h4 : (buildAffiliateMap partners).isEmpty = false)
    (h5 : fetchConversions svc = Except.ok convs)
    (h6 : convs.isEmpty = false) :
    (syncPartnerEarningsFromTapfiliate cfg partners svc l p).2 =
      applyLedger cfg (p ++ "-01") l
        (convs.foldl (processConv cfg (buildAffiliateMap partners)) []) := by
  rw [sync_main_eq cfg partners svc l p convs h1 h2 h3 h4 h5 h6]
  exact applyBuckets_fst cfg (p ++ "-01") l _

/-- Concrete configuration used in the witness scenarios: the default
commission rate 0.35, fee percentage 0.029 and fixed fee 0.30 of
lines 26-28, with Tapfiliate configured. -/
def cfgW : Config := ⟨some "key", some "prog", 35/100, 29/1000, 3/10⟩

/-- The single conversion of the specification scenario:
`{affiliate:{id:"A1"}, amount:100, currency:"USD"}`. -/
def convW : Conversion :=
  ⟨some ⟨some "A1", none, none⟩, none, none, JSNum.num 100, JSNum.missing, some "USD", none⟩

/-- One partner, id 1, linked to affiliate `"A1"`. -/
def partnersW : List PartnerRow := [⟨1, some "A1"⟩]

/-- A service whose every page holds exactly the scenario conversion. -/
def svcW : Nat → PageResp := fun _ => PageResp.records [convW]

/-- A service that fails every HTTP request. -/
def svcErrW : Nat → PageResp := fun _ => PageResp.httpError

/-- A service whose every response body fails to parse as a JSON array. -/
def svcBadW : Nat → PageResp := fun _ => PageResp.badBody

/-- A service that returns an empty first page. -/
def svcEmptyW : Nat → PageResp := fun _ => PageResp.records []

/-- C5: for every ledger upsert, the persisted commission_amount equals
net_revenue × commission_rate exactly — both for the row the upsert
returns and for every row it leaves in the ledger that was not already
there; no rounding is applied before storage. -/
theorem upsert_commission_is_net_times_rate (ledger : List EarningsRow) (partnerId : Nat)
    (period currency : String) (grossRevenue netRevenue commissionRate : JSNum) :
    (upsertPartnerEarnings ledger partnerId period currency grossRevenue netRevenue
        commissionRate).2.commission_amount =
      (upsertPartnerEarnings ledger partnerId period currency grossRevenue netRevenue
        commissionRate).2.net_revenue *
      (upsertPartnerEarnings ledger partnerId period currency grossRevenue netRevenue
        commissionRate).2.commission_rate ∧
    ∀ r ∈ (upsertPartnerEarnings ledger partnerId period currency grossRevenue netRevenue
        commissionRate).1,
      r ∈ ledger ∨ r.commission_amount = r.net_revenue * r.commission_rate := by
  constructor
  · rfl
  · intro r hr
    rcases mem_replaceFirst hr with h | h
    · exact Or.inl h
    · exact Or.inr (by rw [h])

/-- Witness for C5 at a concrete upsert into the empty ledger. -/
theorem upsert_commission_is_net_times_rate_witness :
    (upsertPartnerEarnings [] 1 "2025-01-01" "usd" (JSNum.num 100) (JSNum.num 50)
        (JSNum.num 1)).2 ∈ ([] : List EarningsRow) ∨
      (upsertPartnerEarnings [] 1 "2025-01-01" "usd" (JSNum.num 100) (JSNum.num 50)
        (JSNum.num 1)).2.commission_amount =
        (upsertPartnerEarnings [] 1 "2025-01-01" "usd" (JSNum.num 100) (JSNum.num 50)
          (JSNum.num 1)).2.net_revenue *
        (upsertPartnerEarnings [] 1 "2025-01-01" "usd" (JSNum.num 100) (JSNum.num 50)
          (JSNum.num 1)).2.commission_rate :=
  (upsert_commission_is_net_times_rate [] 1 "2025-01-01" "usd" (JSNum.num 100)
    (JSNum.num 50) (JSNum.num 1)).2 _ (by simp [upsertPartnerEarnings, replaceFirst])

/-- C6: for every gross amount g ≥ 0, the per-conversion net computed
by the aggregator equals max(g − (g × feePercent + feeFixed), 0) for
the configured constants, and this net is always nonnegative. -/
theorem net_estimate_formula_and_nonneg (cfg : Config) (g : ℚ) (h : 0 ≤ g) :
    computeNet cfg g = max (g - (g * cfg.STRIPE_FEE_PERCENT + cfg.STRIPE_FEE_FIXED)) 0 ∧
    0 ≤ computeNet cfg g :=
  ⟨rfl, le_max_right _ _⟩

/-- Witness for C6 at gross 100 under the default configuration. -/
theorem net_estimate_formula_and_nonneg_witness :
    0 ≤ (100 : ℚ) ∧
      (computeNet cfgW 100 =
        max (100 - (100 * cfgW.STRIPE_FEE_PERCENT + cfgW.STRIPE_FEE_FIXED)) 0 ∧
       0 ≤ computeNet cfgW 100) :=
  ⟨by decide, net_estimate_formula_and_nonneg cfgW 100 (by decide)⟩

/-- C10: the upsert stores the constant source tag 'manual_test' on the
row it writes — also on every run of the Tapfiliate earnings sync,
whose writes all go through `upsertPartnerEarnings`; a row of the
resulting ledger either predates the call or carries that tag. -/
theorem upsert_source_always_manual_test (ledger : List EarningsRow) (partnerId : Nat)
    (period currency : String) (grossRevenue netRevenue commissionRate : JSNum)
    (cfg : Config) (partners : List PartnerRow) (svc : Nat → PageResp) (p : String) :
    (upsertPartnerEarnings ledger partnerId period currency grossRevenue netRevenue
        commissionRate).2.source = "manual_test" ∧
    (∀ r ∈ (upsertPartnerEarnings ledger partnerId period currency grossRevenue netRevenue
        commissionRate).1, r ∈ ledger ∨ r.source = "manual_test") ∧
    (∀ r ∈ (syncPartnerEarningsFromTapfiliate cfg partners svc ledger p).2,
      r ∈ ledger ∨ r.source = "manual_test") := by
  refine ⟨rfl, ?_, ?_⟩
  · intro r hr
    rcases mem_replaceFirst hr with h | h
    · exact Or.inl h
    · exact Or.inr (by rw [h])
  · intro r hr
    by_cases hm : mainCond cfg partners svc p
    · obtain ⟨h1, h2, h3, h4, convs, h5, h6⟩ := hm
      rw [sync_main_snd cfg partners svc ledger p convs h1 h2 h3 h4 h5 h6] at hr
      exact mem_applyLedger hr
    · rw [sync_early_snd cfg partners svc ledger p hm] at hr
      exact Or.inl hr

/-- Witness for C10 at a concrete upsert into the empty ledger. -/
theorem upsert_source_always_manual_test_witness :
    (upsertPartnerEarnings [] 2 "2025-02-01" "eur" (JSNum.num 10) (JSNum.num 9)
        (JSNum.num 1)).2 ∈ ([] : List EarningsRow) ∨
      (upsertPartnerEarnings [] 2 "2025-02-01" "eur" (JSNum.num 10) (JSNum.num 9)
        (JSNum.num 1)).2.source = "manual_test" :=
  (upsert_source_always_manual_test [] 2 "2025-02-01" "eur" (JSNum.num 10) (JSNum.num 9)
    (JSNum.num 1) cfgW partnersW svcW "2025-01").2.1 _
    (by simp [upsertPartnerEarnings, replaceFirst])

/-- C3: a fetched conversion that is malformed — no affiliate
identifier extractable, affiliate identifier unknown to the map, or
gross amount that the guard of line 557 rejects (absent, non-numeric,
or ≤ 0) — contributes nothing to any bucket: processing it leaves
every bucket unchanged, and removing it from any position of the
conversion list leaves the aggregate untouched; the aggregation is a
total function, so such a record can never abort the job. -/
theorem malformed_conversion_contributes_nothing (cfg : Config) (m : List (String × Nat))
    (c : Conversion)
    (h : extractAffiliateId c = none ∨
      (∃ aid, extractAffiliateId c = some aid ∧ List.lookup aid m = none) ∨
      grossBad (extractGross c) = true) :
    (∀ b, processConv cfg m b c = b) ∧
    ∀ (b : List (String × BucketEntry)) (xs ys : List Conversion),
      (xs ++ c :: ys).foldl (processConv cfg m) b = (xs ++ ys).foldl (processConv cfg m) b := by
  have hskip : ∀ b, processConv cfg m b c = b := by
    intro b
    rcases h with h | ⟨aid, ha, hl⟩ | h
    · simp [processConv, h]
    · simp [processConv, ha, hl]
    · cases hA : extractAffiliateId c with
      | none => simp [processConv, hA]
      | some aid =>
        cases hL : List.lookup aid m with
        | none => simp [processConv, hA, hL]
        | some pid =>
          by_cases hpid : pid = 0
          · simp [processConv, hA, hL, hpid]
          · cases hG : extractGross c with
            | missing => simp [processConv, hA, hL, hpid, hG]
            | nans => simp [processConv, hA, hL, hpid, hG]
            | num q =>
              rw [hG] at h
              have hq : q ≤ 0 := by simpa [grossBad] using h
              simp [processConv, hA, hL, hpid, hG, hq]
  refine ⟨hskip, ?_⟩
  intro b xs ys
  rw [List.foldl_append, List.foldl_append]
  simp [hskip]

/-- Conversion with no affiliate information at all, used as the
concrete malformed record. -/
def convNoAffW : Conversion := ⟨none, none, none, JSNum.num 5, JSNum.missing, none, none⟩

/-- Witness for C3: the affiliate-less conversion leaves the empty
bucket unchanged. -/
theorem malformed_conversion_contributes_nothing_witness :
    processConv cfgW [] [] convNoAffW = [] :=
  (malformed_conversion_contributes_nothing cfgW [] convNoAffW (Or.inl rfl)).1 []

/-- C7: the pagination loop always terminates after at most 5 page
requests — even against a service that keeps answering full pages —
and it stops exactly at the first page carrying fewer than the page
size of 50 records. -/
theorem pagination_terminates_within_bound (svc : Nat → PageResp) :
    pagesRequested svc ≤ 5 ∧
    ∀ p rs, 1 ≤ p → p ≤ 5 → (∀ q, 1 ≤ q → q < p → fullPage (svc q) = true) →
      svc p = PageResp.records rs → rs.length < 50 → pagesRequested svc = p := by
  constructor
  · exact fetchFrom_count_le svc 5 1 []
  · intro p rs h1 h5 hpre hp hlen
    obtain ⟨_, hc⟩ := fetch_reaches svc p h1 h5 hpre
    obtain ⟨m, hm⟩ : ∃ m, 6 - p = m + 1 := ⟨5 - p, by omega⟩
    rw [hm] at hc
    rw [fetchFrom_small m _ hp hlen] at hc
    simp at hc
    omega

/-- Witness for C7: a service whose first page is empty is queried
exactly once. -/
theorem pagination_terminates_within_bound_witness :
    pagesRequested svcEmptyW ≤ 5 ∧ pagesRequested svcEmptyW = 1 :=
  ⟨(pagination_terminates_within_bound svcEmptyW).1,
   (pagination_terminates_within_bound svcEmptyW).2 1 [] (by decide) (by decide)
     (fun q hq1 hq2 => absurd hq2 (by omega)) rfl (by decide)⟩

/-- C8: a period string that fails the strict YYYY-MM pattern makes
the job reject with the validation error, for every service, partner
table and ledger — the returned ledger is the input ledger, so no
store write happens, and the result does not depend on the service,
so no request is issued (in the source the regex guard of line 463
precedes every `pool.query` and `fetch` of the function). -/
theorem invalid_period_rejected_before_io (cfg : Config) (partners : List PartnerRow)
    (svc : Nat → PageResp) (ledger : List EarningsRow) (p : String)
    (h1 : strTruthy cfg.TAPFILIATE_API_KEY = true)
    (h2 : strTruthy cfg.TAPFILIATE_PROGRAM_ID = true)
    (hp : isValidPeriodYm p = false) :
    syncPartnerEarningsFromTapfiliate cfg partners svc ledger p =
      (Except.error .invalidPeriod, ledger) := by
  unfold syncPartnerEarningsFromTapfiliate
  simp [h1, h2, hp]

/-- Witness for C8 at the malformed period "2025/01". -/
theorem invalid_period_rejected_before_io_witness :
    syncPartnerEarningsFromTapfiliate cfgW partnersW svcW [] "2025/01" =
      (Except.error .invalidPeriod, []) :=
  invalid_period_rejected_before_io cfgW partnersW svcW [] "2025/01"
    (by decide) (by decide) (by decide)

/-- C9: an HTTP-successful page whose body fails to parse as a JSON
array (or is not an array) is treated as the last page: the loop stops
there without error, the fetch succeeds with exactly the conversions
of the earlier pages, and those are what the aggregation then runs on
(the job aggregates precisely the list `fetchConversions` returns). -/
theorem bad_body_treated_as_last_page (svc : Nat → PageResp) (p : Nat)
    (h1 : 1 ≤ p) (h5 : p ≤ 5)
    (hpre : ∀ q, 1 ≤ q → q < p → fullPage (svc q) = true)
    (hb : svc p = PageResp.badBody) :
    fetchConversions svc = Except.ok (collectFrom svc 1 (p - 1)) ∧
    pagesRequested svc = p := by
  obtain ⟨hf, hc⟩ := fetch_reaches svc p h1 h5 hpre
  obtain ⟨m, hm⟩ : ∃ m, 6 - p = m + 1 := ⟨5 - p, by omega⟩
  rw [hm] at hf hc
  rw [fetchFrom_badBody m _ hb] at hf hc
  constructor
  · simpa using hf
  · simp at hc
    omega

/-- Witness for C9: a first-page parse failure yields a successful
empty fetch after exactly one request. -/
theorem bad_body_treated_as_last_page_witness :
    fetchConversions svcBadW = Except.ok (collectFrom svcBadW 1 0) ∧
    pagesRequested svcBadW = 1 :=
  bad_body_treated_as_last_page svcBadW 1 (by decide) (by decide)
    (fun q hq1 hq2 => absurd hq2 (by omega)) rfl

/-- C2: when the job reaches the fetch phase and some requested page
answers with a non-successful HTTP response, the whole job aborts with
the fetch error and the ledger is returned exactly as it came in — the
aggregation and upsert phases never run on the incomplete conversion
set. -/
theorem sync_aborts_on_http_failure_no_writes (cfg : Config) (partners : List PartnerRow)
    (svc : Nat → PageResp) (ledger : List EarningsRow) (p : String) (q : Nat)
    (h1 : strTruthy cfg.TAPFILIATE_API_KEY = true)
    (h2 : strTruthy cfg.TAPFILIATE_PROGRAM_ID = true)
    (h3 : isValidPeriodYm p = true)
    (h4 : (buildAffiliateMap partners).isEmpty = false)
    (hq1 : 1 ≤ q) (hq5 : q ≤ 5)
    (hpre : ∀ r, 1 ≤ r → r < q → fullPage (svc r) = true)
    (hfail : svc q = PageResp.httpError) :
    syncPartnerEarningsFromTapfiliate cfg partners svc ledger p =
      (Except.error .fetchFailed, ledger) := by
  have hfe : fetchConversions svc = Except.error .fetchFailed := by
    obtain ⟨hf, _⟩ := fetch_reaches svc q hq1 hq5 hpre
    obtain ⟨m, hm⟩ : ∃ m, 6 - q = m + 1 := ⟨5 - q, by omega⟩
    rw [hm] at hf
    rw [fetchFrom_httpError m _ hfail] at hf
    simpa using hf
  unfold syncPartnerEarningsFromTapfiliate
  simp [h1, h2, h3, h4, hfe]

/-- Witness for C2: a first-page HTTP failure aborts the concrete run
with the fetch error and an unchanged (empty) ledger. -/
theorem sync_aborts_on_http_failure_no_writes_witness :
    syncPartnerEarningsFromTapfiliate cfgW partnersW svcErrW [] "2025-01" =
      (Except.error .fetchFailed, []) :=
  sync_aborts_on_http_failure_no_writes cfgW partnersW svcErrW [] "2025-01" 1
    (by decide) (by decide) (by decide) (by decide) (by decide) (by decide)
    (fun r hr1 hr2 => absurd hr2 (by omega)) rfl

/-- C1: starting from a ledger with at most one row per
(partner, period, currency) key, running the earnings job twice for
the same period against an unchanged conversion set leaves the ledger
of the second run identical to that of the first — the second run
overwrites each touched key in place instead of duplicating it — and
the at-most-one-row-per-key invariant still holds after a run. -/
theorem sync_twice_idempotent_and_key_unique (cfg : Config) (partners : List PartnerRow)
    (svc : Nat → PageResp) (ledger : List EarningsRow) (p : String)
    (h : keysDistinct ledger = true) :
    (syncPartnerEarningsFromTapfiliate cfg partners svc
        ((syncPartnerEarningsFromTapfiliate cfg partners svc ledger p).2) p).2 =
      (syncPartnerEarningsFromTapfiliate cfg partners svc ledger p).2 ∧
    keysDistinct (syncPartnerEarningsFromTapfiliate cfg partners svc ledger p).2 = true := by
  by_cases hm : mainCond cfg partners svc p
  · obtain ⟨h1, h2, h3, h4, convs, h5, h6⟩ := hm
    have hwf : bucketWF (convs.foldl (processConv cfg (buildAffiliateMap partners)) []) :=
      foldl_processConv_WF _ _ _ [] ⟨List.nodup_nil, by simp⟩
    have hpw := bucketWF_pairwise_entryKey (p ++ "-01") hwf
    have e1 := sync_main_snd cfg partners svc ledger p convs h1 h2 h3 h4 h5 h6
    have e2 := sync_main_snd cfg partners svc
      ((syncPartnerEarningsFromTapfiliate cfg partners svc ledger p).2) p convs
      h1 h2 h3 h4 h5 h6
    constructor
    · rw [e2, e1]
      exact applyLedger_idem hpw ledger
    · rw [e1]
      exact keysDistinct_applyLedger _ h
  · have e1 := sync_early_snd cfg partners svc ledger p hm
    constructor
    · rw [e1]
      exact sync_early_snd cfg partners svc ledger p hm
    · rw [e1]
      exact h

/-- Witness for C1 on a concrete run (parse-failing service, empty
initial ledger). -/
theorem sync_twice_idempotent_and_key_unique_witness :
    keysDistinct ([] : List EarningsRow) = true ∧
    ((syncPartnerEarningsFromTapfiliate cfgW partnersW svcBadW
        ((syncPartnerEarningsFromTapfiliate cfgW partnersW svcBadW [] "2025-01").2)
        "2025-01").2 =
      (syncPartnerEarningsFromTapfiliate cfgW partnersW svcBadW [] "2025-01").2 ∧
     keysDistinct (syncPartnerEarningsFromTapfiliate cfgW partnersW svcBadW [] "2025-01").2 =
       true) :=
  ⟨rfl, sync_twice_idempotent_and_key_unique cfgW partnersW svcBadW [] "2025-01" rfl⟩

unseal Rat.mul Rat.add Rat.sub Rat.inv Rat.ofScientific in
/-- C4: for period "2025-01", one partner (id 1) linked to affiliate
"A1" and the single conversion of the spec scenario (amount 100,
currency "USD"), with feePercent 0.029, feeFixed 0.30 and commission
rate 0.35, the job writes exactly one ledger row, keyed
(1, "2025-01-01", "usd"), with gross 100, net 96.8 and commission
amount 33.88, and reports the same figures in its summary. -/
theorem scenario_period_2025_01_ledger_row :
    (syncPartnerEarningsFromTapfiliate cfgW partnersW svcW [] "2025-01").2 =
      [⟨1, "2025-01-01", "usd", 100, 96.8, 0.35, 33.88, "manual_test"⟩] ∧
    (syncPartnerEarningsFromTapfiliate cfgW partnersW svcW [] "2025-01").1.toOption =
      some ⟨"2025-01", [⟨1, "usd", 100, 96.8, 0.35, 33.88⟩], none⟩ := by
  constructor
  · decide
  · decide
